import Mathlib

/-!
Verification of the HP3478A bench-meter driver protocol layer.

The driver talks to the meter with ASCII command strings and decodes a
5-byte binary status block.  We embed the codec as pure Lean functions:
each setter is modelled as a function from its argument to the command
string it writes (fallible setters return `Except` carrying either the
error message or the list of writes performed), and each status-block
getter is modelled as a function of the relevant status byte.  Bytes are
`Nat` values below 256.
-/

set_option autoImplicit false
set_option maxRecDepth 8192
set_option maxHeartbeats 1000000

namespace HP3478A

/-- `bit_is_set(value, bitnum)` from the source: tests whether the given
bit number is set in `value`. -/
def bit_is_set (value bitnum : Nat) : Bool :=
  if value &&& (1 <<< bitnum) ≠ 0 then true else false

/-- Python list indexing semantics as used by `functions[i]`: a
nonnegative index counts from the front, a negative index counts from the
back, and anything out of bounds raises `IndexError` (modelled as
`none`). -/
def pyListGet (xs : List String) (i : Int) : Option String :=
  let j : Int := if i < 0 then (xs.length : Int) + i else i
  if 0 ≤ j then xs.get? j.toNat else none

/-- The `functions` table of the source, in order. -/
def functions : List String :=
  ["VDC", "VAC", "RTW", "RFW", "IDC", "IAC", "REX"]

/-- The `function` getter: `HP3478A.functions[(bstat[0] >> 5) - 1]`,
with Python indexing (so a negative index wraps to the back of the
list). -/
def decodeFunction (b0 : Nat) : Option String :=
  pyListGet functions (((b0 >>> 5 : Nat) : Int) - 1)

/-- The dict of booleans returned by the `status` property, decoded from
status byte 1. -/
structure StatusFlags where
  ext_trigger : Bool
  cal_ram : Bool
  front : Bool
  hz50 : Bool
  autozero : Bool
  autorange : Bool
  int_trigger : Bool
deriving DecidableEq, Repr

/-- The `status` property body: pure bit extraction from status byte 1. -/
def decodeFlags (b1 : Nat) : StatusFlags :=
  { ext_trigger := bit_is_set b1 6
    cal_ram := bit_is_set b1 5
    front := bit_is_set b1 4
    hz50 := bit_is_set b1 3
    autozero := bit_is_set b1 2
    autorange := bit_is_set b1 1
    int_trigger := bit_is_set b1 0 }

/-- The `trigger` getter: `E` if bit 6 of status byte 1 is set, else `I`
if bit 0 is set, else `H`. -/
def decodeTrigger (b1 : Nat) : String :=
  if bit_is_set b1 6 then "E"
  else if bit_is_set b1 0 then "I"
  else "H"

/-- The `autozero` getter: `bstat[1] & (1 << 2)` truth-tested. -/
def autozeroGet (b1 : Nat) : Bool :=
  if b1 &&& (1 <<< 2) ≠ 0 then true else false

/-- A value given to the `range` setter: either the string AUTO or a
numeric value (Python numbers are modelled as rationals). -/
inductive RangeSetting where
  | auto : RangeSetting
  | num : ℚ → RangeSetting

/-- The bracket-selection chain of the `range` setter.  The source
implements it with an inclusive-upper-bound if chain rather than a
logarithm. -/
def rangeBracket (value : ℚ) : Int :=
  if value ≤ 3/100 then -2
  else if value ≤ 3/10 then -1
  else if value ≤ 3 then 0
  else if value ≤ 30 then 1
  else if value ≤ 300 then 2
  else if value ≤ 3000 then 3
  else if value ≤ 30000 then 4
  else if value ≤ 300000 then 5
  else if value ≤ 3000000 then 6
  else 7

/-- The `range` setter: writes `RA` for AUTO, else `R` followed by the
bracket index formatted as a signed decimal integer. -/
def encodeRange : RangeSetting → String
  | RangeSetting.auto => "RA"
  | RangeSetting.num value => "R" ++ toString (rangeBracket value)

/-- The `range` getter: reads the 3-bit exponent field in bits 2..4 of
status byte 0, shifts it down by a function-dependent offset (the
function field lives in bits 5..7), and returns 3 times the resulting
power of ten.  The result type is a plain rational: AUTO is never
decoded. -/
def decodeRange (b0 : Nat) : ℚ :=
  let expRaw : Int := ((b0 >>> 2) &&& 0x07 : Nat)
  let func : Nat := b0 >>> 5
  let expVal : Int :=
    if func = 1 then expRaw - 3
    else if func = 2 ∨ func = 5 ∨ func = 6 then expRaw - 2
    else expRaw
  3 * (10 : ℚ) ^ expVal

/-- The exponent-offset table stated by the spec, keyed by the raw
function field: 3 for VoltageDC (field 1), 2 for VoltageAC, CurrentDC
and CurrentAC (fields 2, 5, 6), 0 otherwise. -/
def rangeOffset : Nat → Int
  | 1 => 3
  | 2 => 2
  | 5 => 2
  | 6 => 2
  | _ => 0

/-- The `resolution` getter: the bottom 2 bits of status byte 0, with
field value 1 meaning 5 digits, 2 meaning 4 digits, anything else 3
digits. -/
def decodeResolution (b0 : Nat) : Nat :=
  if b0 &&& 0x03 = 1 then 5
  else if b0 &&& 0x03 = 2 then 4
  else 3

/-- The `resolution` setter: digit counts 3..5 produce the command
`N<digits>`; anything else raises `ValueError` and nothing is
written. -/
def encodeResolution (value : Int) : Except String String :=
  if 3 ≤ value ∧ value ≤ 5 then Except.ok ("N" ++ toString value)
  else Except.error "Invalid number of digits (must be between 3 and 5)."

/-- The 2-bit field that carries resolution `n` per the status-byte
table (1 carries 5 digits, 2 carries 4 digits, any other value carries
3 digits; 3 itself is such an other value). -/
def resolutionField (n : Nat) : Nat :=
  if n = 5 then 1 else if n = 4 then 2 else 3

/-- The `text` setter: every character of the value must lie in ASCII
32..95, otherwise `ValueError` is raised before anything is written; on
success exactly one command `D<mode><text>` terminated by a newline is
written.  The result carries the list of writes performed. -/
def setText (textmode : Nat) (value : String) : Except String (List String) :=
  if value.data.any (fun c => c.toNat < 32 || 95 < c.toNat) then
    Except.error "Invalid characters in text."
  else
    Except.ok ["D" ++ toString textmode ++ value ++ "\n"]

/-- Octal digit string of a natural number, no sign and no padding, as
Python `o` formatting produces for nonnegative input. -/
def octalDigits (n : Nat) : String := (Nat.toDigits 8 n).asString

/-- Python width-2 octal formatting as used by the `srq_mask` setter:
octal digits, minimum field width 2, right-aligned, filled with spaces
(a minus sign for negative input counts toward the width). -/
def pyFormatOct2 (n : Int) : String :=
  let digits := if n < 0 then "-" ++ octalDigits (-n).toNat else octalDigits n.toNat
  if digits.length < 2 then " " ++ digits else digits

/-- The `srq_mask` setter: stores the value as client-side shadow state
and writes `M` followed by the width-2 octal rendering of the value.
The result is the new shadow state paired with the written command. -/
def setSrqMask (value : Int) : Int × String :=
  (value, "M" ++ pyFormatOct2 value)

/-- The command wording of the spec for the SRQ mask: `M` followed by
the two-digit zero-padded octal representation. -/
def srqMaskCommandSpec (n : Nat) : String :=
  "M" ++ (if n < 8 then "0" ++ octalDigits n else octalDigits n)

/-- The command issued by `_bstatus` before reading the reply. -/
def fetchStatusCommand : String := "B"

/-- The unpacking step of `_bstatus`: a reply of exactly 5 bytes yields
the 5 status bytes in order (settings, status, srq mask, error, dac);
any other length raises an unpack error, the ProtocolError of the
spec. -/
def bstatus (reply : List Nat) : Except String (Nat × Nat × Nat × Nat × Nat) :=
  match reply with
  | [a, b, c, d, e] => Except.ok (a, b, c, d, e)
  | _ => Except.error "unpack requires a buffer of 5 bytes"

end HP3478A

open HP3478A

/-- C10: for every status byte 1, the dedicated `autozero` getter agrees
with the `autozero` entry of the decoded status flags, and both test
bit 2 of the byte. -/
theorem autozero_getter_matches_flags : ∀ b1 : Fin 256,
    autozeroGet b1.val = (decodeFlags b1.val).autozero ∧
    autozeroGet b1.val = Nat.testBit b1.val 2 := by
  decide

/-- C1 counterexample: a status block whose function field is zero gives
Python index `-1`, which does not fail: negative list indexing returns
the last table entry, so decoding byte 0 = 0 succeeds with `"REX"`. -/
theorem decode_function_field_zero_no_error :
    decodeFunction 0 = some "REX" ∧ decodeFunction 0 ≠ none := by
  decide

/-- C1 amended: decoding the function never fails for any status byte 0:
a function field of 0 (index `-1`) wraps to the last table entry `"REX"`
by Python negative indexing, and every field value `f` in 1..7 returns
the entry at index `f - 1` of the table `VDC, VAC, RTW, RFW, IDC, IAC,
REX`. -/
theorem decode_function_total : ∀ b0 : Fin 256,
    decodeFunction b0.val =
      some (functions.getD
        (if b0.val >>> 5 = 0 then 6 else b0.val >>> 5 - 1) "") := by
  decide

/-- C2 counterexample: on status byte 1 = 0b01010101 the decoded flags
have `ext_trigger = true` (the code reads `ext_trigger` from bit 6,
which is set), not `false` as the claim states. -/
theorem decode_flags_85_ext_trigger :
    (decodeFlags 0b01010101).ext_trigger = true := by
  decide

/-- C2 amended: the status-flags decode is pure bit extraction of status
byte 1 with `int_trigger` = bit 0, `autorange` = bit 1, `autozero` =
bit 2, `50hz` = bit 3, `front` = bit 4, `cal_ram` = bit 5 and
`ext_trigger` = bit 6 (no bit is unused among 0..6); on byte 1 =
0b01010101 this yields `int_trigger = true`, `autorange = false`,
`autozero = true`, `50hz = false`, `front = true`, `cal_ram = false`
and `ext_trigger = true`. -/
theorem decode_flags_bit_table :
    (∀ b1 : Fin 256,
      decodeFlags b1.val =
        { ext_trigger := Nat.testBit b1.val 6
          cal_ram := Nat.testBit b1.val 5
          front := Nat.testBit b1.val 4
          hz50 := Nat.testBit b1.val 3
          autozero := Nat.testBit b1.val 2
          autorange := Nat.testBit b1.val 1
          int_trigger := Nat.testBit b1.val 0 }) ∧
    decodeFlags 0b01010101 =
      { ext_trigger := true, cal_ram := false, front := true,
        hz50 := false, autozero := true, autorange := false,
        int_trigger := true } := by
  decide

/-- C6: the decoded trigger source is `E` (External) when bit 6 of status
byte 1 is set, else `I` (Internal) when bit 0 is set, else `H` (Hold);
it is never `S` (Single) or `F` (Fast); and a byte with both bit 6 and
bit 0 set decodes to `E`. -/
theorem trigger_decode_precedence :
    (∀ b1 : Fin 256,
      decodeTrigger b1.val =
        (if Nat.testBit b1.val 6 then "E"
         else if Nat.testBit b1.val 0 then "I" else "H") ∧
      decodeTrigger b1.val ≠ "S" ∧ decodeTrigger b1.val ≠ "F") ∧
    decodeTrigger 0x41 = "E" := by
  decide

/-- C3: the range setter emits `RA` for AUTO and otherwise `R` followed
by the signed decimal bracket index; the chosen bracket is the smallest
index k in -2..6 whose upper bound 3×10^k is at least the value
(inclusive upper bound), and 7 when no enumerated bound suffices; the
inputs 0.03, 0.031, 3, 3.1, 3000000 and 5000000 select brackets -2, -1,
0, 1, 6 and 7. -/
theorem range_encode_smallest_bracket :
    encodeRange RangeSetting.auto = "RA" ∧
    (∀ value : ℚ,
      encodeRange (RangeSetting.num value) = "R" ++ toString (rangeBracket value)) ∧
    (∀ value : ℚ,
      (-2 ≤ rangeBracket value ∧ rangeBracket value ≤ 7) ∧
      (rangeBracket value ≠ 7 → value ≤ 3 * (10 : ℚ) ^ rangeBracket value) ∧
      (∀ k : Int, -2 ≤ k → k < rangeBracket value → 3 * (10 : ℚ) ^ k < value)) ∧
    rangeBracket (3/100) = -2 ∧ rangeBracket (31/1000) = -1 ∧
    rangeBracket 3 = 0 ∧ rangeBracket (31/10) = 1 ∧
    rangeBracket 3000000 = 6 ∧ rangeBracket 5000000 = 7 ∧
    encodeRange (RangeSetting.num (3/100)) = "R-2" ∧
    encodeRange (RangeSetting.num 5000000) = "R7" := by
  have p2 : (3 : ℚ) * 10 ^ (-2 : Int) = 3/100 := by norm_num
  have p1 : (3 : ℚ) * 10 ^ (-1 : Int) = 3/10 := by norm_num
  have p0 : (3 : ℚ) * 10 ^ (0 : Int) = 3 := by norm_num
  have q1 : (3 : ℚ) * 10 ^ (1 : Int) = 30 := by norm_num
  have q2 : (3 : ℚ) * 10 ^ (2 : Int) = 300 := by norm_num
  have q3 : (3 : ℚ) * 10 ^ (3 : Int) = 3000 := by norm_num
  have q4 : (3 : ℚ) * 10 ^ (4 : Int) = 30000 := by norm_num
  have q5 : (3 : ℚ) * 10 ^ (5 : Int) = 300000 := by norm_num
  have q6 : (3 : ℚ) * 10 ^ (6 : Int) = 3000000 := by norm_num
  refine ⟨rfl, fun _ => rfl, ?_, by norm_num [rangeBracket],
    by norm_num [rangeBracket], by norm_num [rangeBracket],
    by norm_num [rangeBracket], by norm_num [rangeBracket],
    by norm_num [rangeBracket],
    by norm_num [rangeBracket, encodeRange]; rfl,
    by norm_num [rangeBracket, encodeRange]; rfl⟩
  intro v
  unfold rangeBracket
  split_ifs with h1 h2 h3 h4 h5 h6 h7 h8 h9 <;>
    (try simp only [not_le] at *) <;>
    refine ⟨by norm_num, fun hne => ?_, fun k hk1 hk2 => ?_⟩ <;>
    first
      | exact absurd rfl hne
      | (rw [p2]; linarith)
      | (rw [p1]; linarith)
      | (rw [p0]; linarith)
      | (rw [q1]; linarith)
      | (rw [q2]; linarith)
      | (rw [q3]; linarith)
      | (rw [q4]; linarith)
      | (rw [q5]; linarith)
      | (rw [q6]; linarith)
      | omega
      | (interval_cases k <;>
          simp only [p2, p1, p0, q1, q2, q3, q4, q5, q6] <;> linarith)

/-- C3 witness: instantiating the smallest-bracket characterization at
the value 3.1, whose bracket is 1: the bound of bracket 1 covers 3.1
and the bound of the smaller bracket 0 lies strictly below 3.1. -/
theorem range_encode_smallest_bracket_witness :
    (31/10 : ℚ) ≤ 3 * (10 : ℚ) ^ rangeBracket (31/10) ∧
    3 * (10 : ℚ) ^ (0 : Int) < (31/10 : ℚ) :=
  ⟨(range_encode_smallest_bracket.2.2.1 (31/10)).2.1 (by norm_num [rangeBracket]),
   (range_encode_smallest_bracket.2.2.1 (31/10)).2.2 0 (by norm_num)
     (by norm_num [rangeBracket])⟩

/-- C4: for every status byte 0, the decoded range is 3×10^(e − off)
where e is the 3-bit exponent field in bits 2..4 and off is the
function-dependent offset (3 for function field 1 = VDC; 2 for fields
2, 5, 6 = VAC, IDC, IAC; 0 otherwise), and the result is always a
positive number (never AUTO).  In particular, with function VDC the
byte 32 + 4e decodes to 3×10^(e−3) and with function IAC the byte
192 + 4e decodes to 3×10^(e−2). -/
theorem range_decode_offset :
    (∀ b0 : Fin 256,
      decodeRange b0.val =
        3 * (10 : ℚ) ^ ((((b0.val >>> 2) &&& 0x07 : Nat) : Int) - rangeOffset (b0.val >>> 5)) ∧
      0 < decodeRange b0.val) ∧
    (∀ e : Fin 8,
      decodeRange (32 + 4 * e.val) = 3 * (10 : ℚ) ^ ((e.val : Int) - 3) ∧
      decodeRange (192 + 4 * e.val) = 3 * (10 : ℚ) ^ ((e.val : Int) - 2)) := by
  have land7 : ∀ n : Nat, n &&& 7 = n % 8 :=
    fun n => Nat.and_pow_two_sub_one_eq_mod n 3
  constructor
  · intro b0
    constructor
    · simp only [decodeRange]
      split_ifs with h1 h2
      · rw [h1]; rfl
      · rcases h2 with h | h | h <;> rw [h] <;> rfl
      · have h0 : rangeOffset (b0.val >>> 5) = 0 := by
          unfold rangeOffset
          split <;> simp_all
        rw [h0, sub_zero]
        norm_num
    · simp only [decodeRange]
      split_ifs <;> positivity
  · intro e
    constructor <;>
      fin_cases e <;>
      norm_num [decodeRange, Nat.shiftRight_eq_div_pow, land7]

/-- C5: the claim says the SRQ-mask setter emits two-digit zero-padded
octal, and the constructor indeed writes the zero-padded literal `M00`
for the default mask, but the setter formats with width-2 space
padding: at mask 5 it writes `M 5`, not `M05`.  The shadow-state part
of the claim holds: the stored value is exactly the argument. -/
theorem srq_mask_setter_space_padded :
    setSrqMask 5 = (5, "M 5") ∧
    srqMaskCommandSpec 5 = "M05" ∧
    "M 5" ≠ "M05" ∧
    (∀ n : Int, (setSrqMask n).1 = n) :=
  ⟨by decide, by decide, by decide, fun _ => rfl⟩

/-- C8: `_bstatus` issues the command `B`; a 5-byte reply unpacks to the
five status bytes in order; a shorter reply (length 4 in particular)
fails with an unpack error instead of a truncated decode. -/
theorem fetch_status_unpack :
    fetchStatusCommand = "B" ∧
    (∀ a b c d e : Nat, bstatus [a, b, c, d, e] = Except.ok (a, b, c, d, e)) ∧
    (∀ reply : List Nat, reply.length < 5 →
      bstatus reply = Except.error "unpack requires a buffer of 5 bytes") ∧
    bstatus [1, 2, 3, 4] = Except.error "unpack requires a buffer of 5 bytes" := by
  refine ⟨rfl, fun a b c d e => rfl, ?_, rfl⟩
  intro reply h
  rcases reply with _ | ⟨a, _ | ⟨b, _ | ⟨c, _ | ⟨d, _ | ⟨e, tl⟩⟩⟩⟩⟩ <;>
    simp_all [bstatus]
  omega

/-- C8 witness: the short-reply clause applied to the concrete 4-byte
reply 0,1,2,3. -/
theorem fetch_status_unpack_witness :
    ([0, 1, 2, 3] : List Nat).length < 5 ∧
    bstatus [0, 1, 2, 3] = Except.error "unpack requires a buffer of 5 bytes" :=
  ⟨by decide, fetch_status_unpack.2.2.1 [0, 1, 2, 3] (by decide)⟩

/-- C9: the resolution decode maps the 2-bit field (bits 0..1 of status
byte 0) as 1 to 5 digits, 2 to 4 digits, anything else to 3 digits, so
each digit count 3, 4, 5 decodes back from its encoded field; the
setter accepts exactly 3..5 (emitting `N<digits>`) and raises
`ValueError`, with nothing written, for every other integer. -/
theorem resolution_codec :
    (∀ b0 : Fin 256, decodeResolution b0.val = [3, 5, 4, 3].getD (b0.val % 4) 0) ∧
    decodeResolution (resolutionField 3) = 3 ∧
    decodeResolution (resolutionField 4) = 4 ∧
    decodeResolution (resolutionField 5) = 5 ∧
    (∀ n : Int, 3 ≤ n → n ≤ 5 →
      encodeResolution n = Except.ok ("N" ++ toString n)) ∧
    (∀ n : Int, n < 3 ∨ 5 < n →
      encodeResolution n =
        Except.error "Invalid number of digits (must be between 3 and 5).") := by
  refine ⟨by decide, by decide, by decide, by decide, ?_, ?_⟩
  · intro n h1 h2
    unfold encodeResolution
    rw [if_pos ⟨h1, h2⟩]
  · intro n h
    unfold encodeResolution
    rw [if_neg (by omega)]

/-- C9 witness: the setter clauses applied at the concrete digit counts
4 (accepted) and 6 (rejected). -/
theorem resolution_codec_witness :
    encodeResolution 4 = Except.ok ("N" ++ toString (4 : Int)) ∧
    encodeResolution 6 =
      Except.error "Invalid number of digits (must be between 3 and 5)." :=
  ⟨resolution_codec.2.2.2.2.1 4 (by decide) (by decide),
   resolution_codec.2.2.2.2.2 6 (by decide)⟩

/-- C7: the text setter fails exactly when some character of the string
has a code outside ASCII 32..95, and in that case nothing is written;
otherwise exactly one command `D<mode><text>` terminated by a newline
is written. -/
theorem text_setter_validation : ∀ (mode : Nat) (s : String),
    (setText mode s = Except.error "Invalid characters in text." ↔
      ∃ c ∈ s.data, c.toNat < 32 ∨ 95 < c.toNat) ∧
    (setText mode s = Except.ok ["D" ++ toString mode ++ s ++ "\n"] ↔
      ∀ c ∈ s.data, 32 ≤ c.toNat ∧ c.toNat ≤ 95) := by
  intro mode s
  unfold setText
  split_ifs with h
  · rw [List.any_eq_true] at h
    simp only [Bool.or_eq_true, decide_eq_true_eq] at h
    obtain ⟨c, hc, hbad⟩ := h
    constructor
    · exact iff_of_true rfl ⟨c, hc, hbad⟩
    · refine iff_of_false (by simp) fun hall => ?_
      have := hall c hc
      omega
  · rw [Bool.not_eq_true, List.any_eq_false] at h
    simp only [Bool.or_eq_true, decide_eq_true_eq, not_or, not_lt] at h
    constructor
    · refine iff_of_false (by simp) fun ⟨c, hc, hbad⟩ => ?_
      have := h c hc
      omega
    · exact iff_of_true rfl fun c hc => ⟨(h c hc).1, (h c hc).2⟩

/-- C7 witness: a string of the boundary characters 32 and 95 is
accepted and written as one command, while strings containing the
out-of-range codes 31 and 96 are rejected. -/
theorem text_setter_validation_witness :
    setText 2 (String.mk [Char.ofNat 32, Char.ofNat 95]) =
      Except.ok
        ["D" ++ toString (2 : Nat) ++ String.mk [Char.ofNat 32, Char.ofNat 95] ++ "\n"] ∧
    setText 2 (String.mk [Char.ofNat 31]) = Except.error "Invalid characters in text." ∧
    setText 2 (String.mk [Char.ofNat 96]) = Except.error "Invalid characters in text." :=
  ⟨(text_setter_validation 2 _).2.mpr (by decide),
   (text_setter_validation 2 _).1.mpr (by decide),
   (text_setter_validation 2 _).1.mpr (by decide)⟩
